import Mathlib

/-!
Shallow embedding of the React-Interview-Practice tutorial snippets:
controlled/uncontrolled form components, React.memo shallow comparison,
useEffect pitfall components (infinite loop, stale closure, race
condition) and the theme context provider.
-/

namespace ReactPractice

/-! ## JavaScript value model

Primitive values are compared by value; objects and arrays carry a
reference identifier because JavaScript compares them by reference. -/

inductive Prim where
  | str (s : String)
  | num (n : Int)
  | bool (b : Bool)
  | null
  | undefined
deriving DecidableEq, Repr

inductive JSVal where
  | prim (p : Prim)
  | obj (ref : Nat) (fields : List (String × Prim))
  | arr (ref : Nat) (elems : List Prim)
deriving DecidableEq, Repr

/-- JavaScript strict equality as used by `React.memo`'s shallow
comparison: primitives by value, objects and arrays by reference only
(their contents are never inspected). -/
def jsEq : JSVal → JSVal → Bool
  | .prim p, .prim q => p == q
  | .obj r _, .obj r' _ => r == r'
  | .arr r _, .arr r' _ => r == r'
  | _, _ => false

/-- Shallow comparison of two prop records, field by field via `jsEq`. -/
def shallowEqProps : List (String × JSVal) → List (String × JSVal) → Bool
  | [], [] => true
  | (k, v) :: ps, (k', v') :: qs => k == k' && jsEq v v' && shallowEqProps ps qs
  | _, _ => false

/-! ## ControlledComponent / UncontrolledComponent
(`src/week_01/controlled_uncontrolled_comp/src/components`)

A change event carries the full current text of the field
(`e.target.value`). The controlled component stores it in React state;
the uncontrolled component leaves it in the DOM input and reads it
through a ref at submission. -/

structure ControlledState where
  value : String
deriving DecidableEq, Repr

def controlledInit : ControlledState := ⟨""⟩

/-- The change handler: `setValue(e.target.value)`. -/
def handleChange (_ : ControlledState) (targetValue : String) : ControlledState :=
  ⟨targetValue⟩

/-- The submit handler: `alert("A name was submitted" + value)`. -/
def controlledSubmitAlert (s : ControlledState) : String :=
  "A name was submitted" ++ s.value

structure DomInput where
  value : String
deriving DecidableEq, Repr

def domInputInit : DomInput := ⟨""⟩

/-- Typing into the uncontrolled input: the DOM field holds the text. -/
def domType (_ : DomInput) (targetValue : String) : DomInput :=
  ⟨targetValue⟩

/-- The submit handler: `alert("A name was submitted" + inputRef.current.value)`. -/
def uncontrolledSubmitAlert (d : DomInput) : String :=
  "A name was submitted" ++ d.value

def runControlled (events : List String) : ControlledState :=
  events.foldl handleChange controlledInit

def runUncontrolled (events : List String) : DomInput :=
  events.foldl domType domInputInit

/-! ## MemoizedChild / Parent (`src/week_01/memo/src/components/MemoizedChild.jsx`) -/

structure ParentState where
  count : Nat
  name : String
deriving DecidableEq, Repr

/-- Initial parent state: `useState(0)`, `useState("Sumit")`. -/
def parentInit : ParentState := ⟨0, "Sumit"⟩

inductive ParentEvent where
  | clickCount
  | clickName
deriving DecidableEq, Repr

/-- The two buttons: `setCount(count + 1)` and `setName("Satyam")`. -/
def parentStep (s : ParentState) : ParentEvent → ParentState
  | .clickCount => { s with count := s.count + 1 }
  | .clickName => { s with name := "Satyam" }

/-- The prop record Parent passes: `<MemoizedChild name={name} />`. -/
def childProps (s : ParentState) : List (String × JSVal) :=
  [("name", .prim (.str s.name))]

/-- React.memo semantics: on a parent re-render the memoized child's
body (and its `console.log`) runs iff the new props are not
shallow-equal to the previous props. -/
def memoBodyInvoked (prev cur : List (String × JSVal)) : Bool :=
  ! shallowEqProps prev cur

/-! ## infiniteLoop (`src/week_01/useEffect_hook/useEffect.jsx`)

The effect body is `setCount(count + 1)` with dependency array
`[count]`. -/

def infiniteLoopEffect (count : Nat) : Nat := count + 1

/-- The dependency array `[count]` of the infiniteLoop effect. -/
def infiniteLoopDeps (count : Nat) : List Nat := [count]

/-- Iterated render/effect cycles: each cycle the effect writes
`count + 1` into the state. -/
def runEffects : Nat → Nat → Nat
  | 0, count => count
  | n + 1, count => runEffects n (infiniteLoopEffect count)

/-! ## staleClosureComponent (edge-cases file, second example)

The mount-only effect (`[]` dependency array) registers an interval
callback; the callback closes over the `count` value of the render in
which it was created, i.e. the initial one. -/

inductive SCEvent where
  | click
  | tick
deriving DecidableEq, Repr

structure SCState where
  count : Nat
  capturedCount : Nat
  log : List Nat
deriving DecidableEq, Repr

/-- Initial state `useState(0)`; the effect runs once on mount and its interval
callback captures `count` as it is at that point. -/
def scInit : SCState := { count := 0, capturedCount := 0, log := [] }

/-- The Increment button runs `setCount(count + 1)`; an interval tick
runs `console.log("Count is", count)` with the captured `count` (the
effect never re-runs, so the closure is never refreshed). -/
def scStep (s : SCState) : SCEvent → SCState
  | .click => { s with count := s.count + 1 }
  | .tick => { s with log := s.capturedCount :: s.log }

def scRun (events : List SCEvent) : SCState :=
  events.foldl scStep scInit

/-! ## RaceConditionComponent (edge-cases file, fourth example) -/

structure JSError where
  name : String
  message : String
deriving DecidableEq, Repr

inductive CatchAction where
  | logError
  | logAborted
deriving DecidableEq, Repr

/-- The `.catch` handler of RaceConditionComponent:
`console.error("Fetch error:", error); setLoading(false);` — the same
action and the same resulting `loading` value for every error.
Returns the action taken and the `loading` flag afterwards. -/
def raceCatch (_ : JSError) : CatchAction × Bool :=
  (.logError, false)

/-- The `catch` branch of CorrectedRaceConditionComponent from the
accompanying markdown prose: `if (error.name === "AbortError")` log the
abort, else log a fetch error. -/
def correctedCatch (e : JSError) : CatchAction :=
  if e.name = "AbortError" then .logAborted else .logError

/-- A fetch call as issued by the effect: the URL template
`/api/users/userId` and the (absent) abort signal option. -/
structure FetchCall where
  url : String
  signal : Option Nat
deriving DecidableEq, Repr

/-- What one run of the RaceConditionComponent effect produces: the
fetch it starts and the cleanup function it returns. -/
structure EffectResult where
  fetchCall : FetchCall
  cleanup : Option Unit
deriving DecidableEq, Repr

/-- The effect body keyed by `[userId]`: `fetch(`/api/users/userId`)`
with no options object (hence no signal), and no `return` of a cleanup
function. -/
def raceConditionEffect (userId : String) : EffectResult :=
  { fetchCall := { url := "/api/users/" ++ userId, signal := none }
    cleanup := none }

/-- A change of `userId` re-runs the effect. React would first run the
previous effect's cleanup; here there is none, so nothing is aborted
and the new fetch is simply added to the pending set. -/
def effectTransition (pending : List FetchCall) (userId : String) : List FetchCall :=
  (raceConditionEffect userId).fetchCall :: pending

def runUserIdChanges (ids : List String) : List FetchCall :=
  ids.foldl effectTransition []

/-! ## ThemeContext (`src/week_01/prop/src/context/ThemeContext.jsx`) -/

/-- The toggle: `setTheme((prevTheme) => (prevTheme === "light" ? "dark" : "light"))`. -/
def toggleTheme (prevTheme : String) : String :=
  if prevTheme = "light" then "dark" else "light"

/-- Initial theme: `useState("light")`. -/
def themeInitString : String := "light"

/-- The theme state as the JavaScript value it is: the string the
provider stores, wrapped in the JS value model. -/
def themeStateVal (theme : String) : JSVal := .prim (.str theme)

/-- The initial theme state as a JavaScript value. -/
def themeInit : JSVal := themeStateVal themeInitString

/-- Theme values reachable in ThemeProvider: the initial state and
anything obtained from a reachable state by a toggle. -/
inductive ReachableTheme : String → Prop where
  | init : ReachableTheme themeInitString
  | toggle {s : String} : ReachableTheme s → ReachableTheme (toggleTheme s)

/-- A field of the context value object: either a data value or a
function (here, a function from theme state to theme state). -/
inductive CtxField where
  | val (v : JSVal)
  | fn (f : String → String)

/-- Default value `createContext({ theme: "light" })`: the default context value has
exactly one field. -/
def defaultThemeContext : List (String × CtxField) :=
  [("theme", .val (.prim (.str "light")))]

/-- The `value` prop the provider supplies: `{ theme, toggleTheme }`. -/
def providerThemeContext (theme : String) : List (String × CtxField) :=
  [("theme", .val (.prim (.str theme))), ("toggleTheme", .fn toggleTheme)]

def getCtxField (ctx : List (String × CtxField)) (k : String) : Option CtxField :=
  (ctx.find? (fun f => f.1 == k)).map (fun f => f.2)

/-- Clicking ThemeButton: `onClick={toggleTheme}` where `toggleTheme`
was destructured from the context. If the field is absent the handler
is `undefined` and the click changes nothing. -/
def themeButtonClick (ctx : List (String × CtxField)) (theme : String) : String :=
  match getCtxField ctx "toggleTheme" with
  | some (.fn f) => f theme
  | _ => theme

/-! ## Theorems -/

theorem foldl_handleChange_value (es : List String) (s : ControlledState) (d : DomInput)
    (h : s.value = d.value) :
    (es.foldl handleChange s).value = (es.foldl domType d).value := by
  induction es generalizing s d with
  | nil => exact h
  | cons e es ih => exact ih _ _ rfl

/-- Claim C1: for every sequence of change events (and in particular for
every final typed text), the controlled form (state-managed value) and
the uncontrolled form (ref read at submission) produce the same alert
message, namely "A name was submitted" concatenated with the typed
text: the two components source the field's text equivalently. -/
theorem controlled_uncontrolled_equiv (events : List String) :
    controlledSubmitAlert (runControlled events)
      = uncontrolledSubmitAlert (runUncontrolled events)
    ∧ ∀ t : String,
        controlledSubmitAlert (runControlled (events ++ [t]))
          = "A name was submitted" ++ t
        ∧ uncontrolledSubmitAlert (runUncontrolled (events ++ [t]))
          = "A name was submitted" ++ t := by
  refine ⟨?_, ?_⟩
  · unfold controlledSubmitAlert uncontrolledSubmitAlert runControlled runUncontrolled
    rw [foldl_handleChange_value events controlledInit domInputInit rfl]
  · intro t
    constructor <;>
      simp [runControlled, runUncontrolled, List.foldl_append, handleChange, domType,
        controlledSubmitAlert, uncontrolledSubmitAlert]

/-- Claim C2: on a Parent re-render the memoized child's body (its
`console.log`) is skipped exactly when its props are shallow-equal to
the previous props, i.e. when the `name` value is unchanged; in
particular the count button, which leaves `name` alone, never
re-invokes the child's body, while any state change that alters `name`
does. -/
theorem memo_child_skips_when_props_shallow_equal (s s' : ParentState) :
    (memoBodyInvoked (childProps s) (childProps s') = false ↔ s.name = s'.name)
    ∧ memoBodyInvoked (childProps s) (childProps (parentStep s .clickCount)) = false := by
  constructor
  · simp [memoBodyInvoked, childProps, shallowEqProps, jsEq]
  · simp [memoBodyInvoked, childProps, parentStep, shallowEqProps, jsEq]

/-- Claim C3: the infiniteLoop effect writes `count + 1` into its own
dependency `count`, so from every starting value the state and the
dependency array both change on each effect run, and iterated effect
execution never reaches a fixed point. -/
theorem infiniteLoop_never_stabilizes :
    (∀ count : Nat, infiniteLoopEffect count ≠ count)
    ∧ (∀ count : Nat, infiniteLoopDeps (infiniteLoopEffect count) ≠ infiniteLoopDeps count)
    ∧ (∀ count n : Nat, runEffects n count = count + n)
    ∧ (∀ count n : Nat, runEffects (n + 1) count ≠ runEffects n count) := by
  have hrun : ∀ n count : Nat, runEffects n count = count + n := by
    intro n
    induction n with
    | zero => intro count; rfl
    | succ n ih =>
        intro count
        show runEffects n (infiniteLoopEffect count) = count + (n + 1)
        rw [ih]
        simp [infiniteLoopEffect]
        omega
  refine ⟨?_, ?_, fun count n => hrun n count, ?_⟩
  · intro count
    simp [infiniteLoopEffect]
  · intro count
    simp [infiniteLoopDeps, infiniteLoopEffect]
  · intro count n
    rw [hrun, hrun]
    omega

/-- Claim C4 counterexample: the rejection handler of
RaceConditionComponent takes the same branch for a deliberate
cancellation (an AbortError) as for a genuine failure (a TypeError):
both are logged as a fetch error with loading cleared, so the handler
does not take a different branch for each kind of rejection. -/
theorem raceCatch_does_not_distinguish :
    raceCatch ⟨"AbortError", "The user aborted a request."⟩
      = raceCatch ⟨"TypeError", "Failed to fetch"⟩
    ∧ raceCatch ⟨"AbortError", "The user aborted a request."⟩
      = (CatchAction.logError, false) :=
  ⟨rfl, rfl⟩

/-- Claim C4 amended: RaceConditionComponent's rejection handler treats
every rejection identically (log a fetch error, clear loading),
distinguishing nothing; the handler that does distinguish a deliberate
cancellation, by branching on the error name "AbortError", appears only
in the accompanying prose example CorrectedRaceConditionComponent. -/
theorem raceCatch_uniform_corrected_branches :
    (∀ e : JSError, raceCatch e = (CatchAction.logError, false))
    ∧ (∀ m : String, correctedCatch ⟨"AbortError", m⟩ = .logAborted)
    ∧ (∀ n m : String, n ≠ "AbortError" → correctedCatch ⟨n, m⟩ = .logError) := by
  refine ⟨fun e => rfl, fun m => by simp [correctedCatch], ?_⟩
  intro n m h
  simp [correctedCatch, h]

theorem raceCatch_uniform_corrected_branches_witness :
    ("TypeError" : String) ≠ "AbortError"
    ∧ correctedCatch ⟨"TypeError", "Failed to fetch"⟩ = .logError :=
  ⟨by decide,
    raceCatch_uniform_corrected_branches.2.2 "TypeError" "Failed to fetch" (by decide)⟩

/-- Every theme value reachable in ThemeProvider is one of the strings
"light" and "dark". -/
theorem reachableTheme_light_or_dark (s : String) (h : ReachableTheme s) :
    s = "light" ∨ s = "dark" := by
  induction h with
  | init => exact Or.inl rfl
  | toggle _ ih => rcases ih with h1 | h1 <;> subst h1 <;> simp [toggleTheme]

/-- Claim C5 counterexample: the theme state is not of boolean type:
the initial value is the string "light", not a boolean, and toggling
produces the string "dark", so the toggle does not flip between the two
boolean values. -/
theorem theme_not_boolean_counterexample :
    themeInit = .prim (.str "light")
    ∧ themeInit ≠ .prim (.bool true)
    ∧ themeInit ≠ .prim (.bool false)
    ∧ themeStateVal (toggleTheme themeInitString) = .prim (.str "dark") := by
  refine ⟨rfl, by decide, by decide, by decide⟩

/-- Claim C5 amended: the theme state held by the theme provider is a
two-valued string flag, not a boolean: every reachable value is the
string "light" or the string "dark" (never a boolean value), and the
toggle operation flips it between those two strings. -/
theorem theme_is_two_valued_string_flag (s : String) (h : ReachableTheme s) :
    (s = "light" ∨ s = "dark")
    ∧ (∀ b : Bool, themeStateVal s ≠ .prim (.bool b))
    ∧ toggleTheme "light" = "dark"
    ∧ toggleTheme "dark" = "light"
    ∧ (toggleTheme s = "light" ∨ toggleTheme s = "dark") := by
  refine ⟨reachableTheme_light_or_dark s h, ?_, by decide, by decide, ?_⟩
  · intro b
    simp [themeStateVal]
  · rcases reachableTheme_light_or_dark s h with h1 | h1 <;> subst h1 <;> simp [toggleTheme]

theorem theme_is_two_valued_string_flag_witness :
    themeInitString = "light" ∨ themeInitString = "dark" :=
  (theme_is_two_valued_string_flag themeInitString ReachableTheme.init).1

/-- Every fetch accumulated over a sequence of userId changes carries
no abort signal, provided the already-pending ones carry none. -/
theorem runUserIdChanges_aux (ids : List String) (pending : List FetchCall)
    (hp : ∀ c ∈ pending, c.signal = none) :
    ∀ c ∈ ids.foldl effectTransition pending, c.signal = none := by
  induction ids generalizing pending with
  | nil => exact hp
  | cons u us ih =>
      refine ih _ ?_
      intro c hc
      rcases List.mem_cons.mp hc with h1 | h1
      · rw [h1]; rfl
      · exact hp c h1

/-- Claim C6: the RaceConditionComponent effect implements no
cancellation: it returns no cleanup function and passes no abort signal
to fetch, so when userId changes, every previously started request is
still pending afterwards (nothing aborts it). -/
theorem raceConditionEffect_no_cancellation :
    (∀ userId : String,
        (raceConditionEffect userId).cleanup = none
        ∧ (raceConditionEffect userId).fetchCall.signal = none)
    ∧ (∀ (pending : List FetchCall) (userId : String),
        ∀ c ∈ pending, c ∈ effectTransition pending userId)
    ∧ (∀ ids : List String, ∀ c ∈ runUserIdChanges ids, c.signal = none) := by
  refine ⟨fun userId => ⟨rfl, rfl⟩, ?_, ?_⟩
  · intro pending userId c hc
    exact List.mem_cons_of_mem _ hc
  · intro ids
    exact runUserIdChanges_aux ids [] (by intro c hc; cases hc)

theorem raceConditionEffect_no_cancellation_witness :
    (⟨"/api/users/1", none⟩ : FetchCall) ∈ [(⟨"/api/users/1", none⟩ : FetchCall)]
    ∧ (⟨"/api/users/1", none⟩ : FetchCall)
        ∈ effectTransition [⟨"/api/users/1", none⟩] "2" :=
  ⟨by simp,
    raceConditionEffect_no_cancellation.2.1 [⟨"/api/users/1", none⟩] "2"
      ⟨"/api/users/1", none⟩ (by simp)⟩

/-- Claim C7: the shallow comparison is field-by-field and never
recurses into nested structure: a primitive field compares equal iff
the values are equal, an object or array field compares equal iff the
references are equal (whatever the contents), and two
reference-distinct objects with identical contents are treated as
changed. -/
theorem shallow_comparison_field_by_field :
    (∀ (k : String) (p q : Prim),
        shallowEqProps [(k, .prim p)] [(k, .prim q)] = true ↔ p = q)
    ∧ (∀ (k : String) (r r' : Nat) (c c' : List (String × Prim)),
        shallowEqProps [(k, .obj r c)] [(k, .obj r' c')] = true ↔ r = r')
    ∧ (∀ (k : String) (r r' : Nat) (e e' : List Prim),
        shallowEqProps [(k, .arr r e)] [(k, .arr r' e')] = true ↔ r = r')
    ∧ (∀ (k : String) (r r' : Nat) (c : List (String × Prim)),
        r ≠ r' → shallowEqProps [(k, .obj r c)] [(k, .obj r' c)] = false) := by
  refine ⟨?_, ?_, ?_, ?_⟩ <;>
    intro k <;>
    simp [shallowEqProps, jsEq]

theorem shallow_comparison_field_by_field_witness :
    (0 : Nat) ≠ 1
    ∧ shallowEqProps [("data", .obj 0 [("x", .num 1)])]
        [("data", .obj 1 [("x", .num 1)])] = false :=
  ⟨by decide,
    shallow_comparison_field_by_field.2.2.2 "data" 0 1 [("x", .num 1)] (by decide)⟩

/-- Claim C8: the theme value is always one of the strings "light" and
"dark", starting at "light", and toggleTheme is an involution on that
set: one application maps "light" to "dark" and "dark" to "light", and
two applications from any reachable state restore the original value. -/
theorem toggleTheme_involution_on_reachable (s : String) (h : ReachableTheme s) :
    themeInitString = "light"
    ∧ (s = "light" ∨ s = "dark")
    ∧ toggleTheme "light" = "dark"
    ∧ toggleTheme "dark" = "light"
    ∧ toggleTheme (toggleTheme s) = s := by
  refine ⟨rfl, reachableTheme_light_or_dark s h, by decide, by decide, ?_⟩
  rcases reachableTheme_light_or_dark s h with h1 | h1 <;> subst h1 <;> simp [toggleTheme]

theorem toggleTheme_involution_on_reachable_witness :
    toggleTheme (toggleTheme themeInitString) = themeInitString :=
  (toggleTheme_involution_on_reachable themeInitString ReachableTheme.init).2.2.2.2

/-- Claim C9: the default value of ThemeContext has exactly one field,
theme = "light", and no toggleTheme, so a consumer outside any provider
destructures toggleTheme as undefined and a ThemeButton click performs
no state change — whereas under a provider the click does toggle. -/
theorem default_context_click_is_noop :
    defaultThemeContext.length = 1
    ∧ getCtxField defaultThemeContext "theme" = some (.val (.prim (.str "light")))
    ∧ getCtxField defaultThemeContext "toggleTheme" = none
    ∧ (∀ theme : String, themeButtonClick defaultThemeContext theme = theme)
    ∧ (∀ theme : String,
        themeButtonClick (providerThemeContext theme) theme = toggleTheme theme) := by
  refine ⟨rfl, rfl, rfl, fun theme => rfl, fun theme => rfl⟩

/-- Any run of staleClosureComponent logs only the captured mount-time
count, provided the state's captured count is 0 and the log so far
holds only zeros. -/
theorem scRun_aux (events : List SCEvent) (s : SCState)
    (hc : s.capturedCount = 0) (hl : ∀ x ∈ s.log, x = 0) :
    ∀ x ∈ (events.foldl scStep s).log, x = 0 := by
  induction events generalizing s with
  | nil => exact hl
  | cons e es ih =>
      cases e with
      | click => exact ih _ hc hl
      | tick =>
          refine ih _ hc ?_
          intro x hx
          rcases List.mem_cons.mp hx with h1 | h1
          · rw [h1, hc]
          · exact hl x h1

/-- Claim C10: the interval callback of staleClosureComponent captures
the initial count 0 (mount-only effect), so for every sequence of
Increment clicks and interval ticks, every value it logs is 0,
independent of the current count state. -/
theorem staleClosure_logs_only_zero (events : List SCEvent) (v : Nat)
    (h : v ∈ (scRun events).log) : v = 0 :=
  scRun_aux events scInit rfl (by intro x hx; cases hx) v h

theorem staleClosure_logs_only_zero_witness :
    (0 : Nat) ∈ (scRun [SCEvent.click, SCEvent.tick, SCEvent.click, SCEvent.tick]).log
    ∧ (0 : Nat) = 0 :=
  ⟨by decide,
    staleClosure_logs_only_zero [SCEvent.click, SCEvent.tick, SCEvent.click, SCEvent.tick]
      0 (by decide)⟩

end ReactPractice
